import Mathlib

/-!
The data-loader widget of `frontend/src/data-form.js`

A shallow embedding of the React component `DataForm`: its endpoint table, the
asynchronous click handler `handleLoad` (lines 19-39), the closure it hands to
the parent callback (lines 28-31), the clear button (line 61) and the rendering
of the text area (line 46), together with the parts of the JavaScript runtime
the handler relies on (truthiness, property reads, object spread, `ToString`,
`JSON.stringify`, `JSON.parse`).

Conventions.
* JavaScript values are the type `JSValue`.  Numbers are modelled by `Int`
  (the handler performs no arithmetic; doubles with a fractional part, and
  integers of 22 digits and more, which print in exponent form, are outside
  the model) and strings by Lean strings (sequences of code points; a character
  outside the Basic Multilingual Plane counts as one unit).
* `JSON.parse` is a parameter `parse : String → Option JSValue` of every
  definition that reaches it (`none` is the thrown `SyntaxError`); the
  concrete `JSON_parse` below instantiates it on examples.
* A run of the handler is recorded as the list of effects it performed, in
  order, and the final value of its local variable `responseData`.
-/

namespace DataForm

/-! ## JavaScript values -/

/-- The JavaScript values that occur in the component: `undefined`, and the
values of JSON. An object is the list of its own enumerable properties in
property order. -/
inductive JSValue where
  | undefined
  | null
  | bool (b : Bool)
  | num (n : Int)
  | str (s : String)
  | arr (xs : List JSValue)
  | obj (ps : List (String × JSValue))

/-- What a `throw` carries: a native `TypeError` or `SyntaxError` object, or an
arbitrary value (the rejection value of `axios.post`, or whatever the parent
callback throws). -/
inductive Thrown where
  | TypeError
  | SyntaxError
  | value (v : JSValue)

namespace JSValue

/-- ECMAScript `ToBoolean`: the test performed by `&&`, `||` and `if`. -/
def toBoolean : JSValue → Bool
  | .undefined => false
  | .null => false
  | .bool b => b
  | .num n => n != 0
  | .str s => s != ""
  | .arr _ => true
  | .obj _ => true

/-- The values on which a property read throws: `undefined` and `null`. -/
def isNullish : JSValue → Bool
  | .undefined => true
  | .null => true
  | _ => false

mutual
/-- ECMAScript `ToString` on the modelled values; an array is joined with
commas (`Array.prototype.join`), an object gives `[object Object]`. -/
def toStringJS : JSValue → String
  | .undefined => "undefined"
  | .null => "null"
  | .bool b => if b then "true" else "false"
  | .num n => toString n
  | .str s => s
  | .arr xs => String.intercalate "," (joinParts xs)
  | .obj _ => "[object Object]"
/-- The pieces `Array.prototype.join` concatenates: `undefined` and `null`
elements give the empty string. -/
def joinParts : List JSValue → List String
  | [] => []
  | .undefined :: rest => "" :: joinParts rest
  | .null :: rest => "" :: joinParts rest
  | x :: rest => toStringJS x :: joinParts rest
end

end JSValue

open JSValue

/-! ## Property reads, spread and property definition -/

/-- The value of the first property named `k` in a property list, `undefined`
when there is none. -/
def lookupProp (k : String) : List (String × JSValue) → JSValue
  | [] => .undefined
  | (k', v) :: rest => if k' = k then v else lookupProp k rest

/-- Index-keyed properties `"i"`, `"i+1"`, ... of a sequence of values. -/
def indexed : Nat → List JSValue → List (String × JSValue)
  | _, [] => []
  | i, x :: xs => (toString i, x) :: indexed (i + 1) xs

/-- The own enumerable properties of a value, as copied by `{...v}`: those of an
object, the indexed elements of an array, the indexed characters of a string,
and none for `undefined`, `null`, booleans and numbers. -/
def ownEnumerable : JSValue → List (String × JSValue)
  | .obj ps => ps
  | .arr xs => indexed 0 xs
  | .str s => indexed 0 (s.toList.map (fun c => JSValue.str (String.singleton c)))
  | _ => []

/-- The own properties a read can see: the enumerable ones and `length` of
arrays and strings. (No name read by this component is a prototype property.) -/
def ownProps : JSValue → List (String × JSValue)
  | .arr xs => indexed 0 xs ++ [("length", .num xs.length)]
  | .str s => ownEnumerable (.str s) ++ [("length", .num s.length)]
  | v => ownEnumerable v

/-- The read `v.k`: throws a `TypeError` on `undefined` and `null`. -/
def getProp (v : JSValue) (k : String) : Except Thrown JSValue :=
  if v.isNullish then .error .TypeError else .ok (lookupProp k (ownProps v))

/-- The optional read `v?.k`: `undefined` on `undefined` and `null`. -/
def optProp (v : JSValue) (k : String) : JSValue :=
  if v.isNullish then .undefined else lookupProp k (ownProps v)

/-- The value of a sequence of decimal digits. -/
def digitsVal (ds : List Char) : Nat :=
  ds.foldl (fun n c => 10 * n + (c.toNat - 48)) 0

/-- Whether a property key is an array index (a canonical decimal numeral
below `2^32 - 1`); such keys come first, in ascending order, in property
order. -/
def arrayIndex? (k : String) : Option Nat :=
  if k.toList ≠ [] ∧ k.toList.all Char.isDigit
      ∧ (k.toList.head? ≠ some '0' ∨ k.toList.length = 1)
      ∧ digitsVal k.toList < 4294967295 then
    some (digitsVal k.toList)
  else none

/-- Insertion of a new array-index key `n` at its place in property order. -/
def insertIndexProp (n : Nat) (k : String) (v : JSValue) :
    List (String × JSValue) → List (String × JSValue)
  | [] => [(k, v)]
  | (k', v') :: rest =>
    match arrayIndex? k' with
    | some m => if m < n then (k', v') :: insertIndexProp n k v rest
                else (k, v) :: (k', v') :: rest
    | none => (k, v) :: (k', v') :: rest

/-- Replacement of the value of the existing property `k`, which keeps its
place. -/
def replaceProp (k : String) (v : JSValue) :
    List (String × JSValue) → List (String × JSValue)
  | [] => []
  | (k', v') :: rest => if k' = k then (k, v) :: rest else (k', v') :: replaceProp k v rest

/-- Definition of the data property `k` with value `v` on an object (as by an
object-literal member or by `JSON.parse`): an existing key keeps its place and
takes the new value, a new key is added in property order. -/
def defineProp (ps : List (String × JSValue)) (k : String) (v : JSValue) :
    List (String × JSValue) :=
  if ps.any (fun p => p.1 = k) then replaceProp k v ps
  else match arrayIndex? k with
    | some n => insertIndexProp n k v ps
    | none => ps ++ [(k, v)]

/-! ## `JSON.stringify` -/

/-- One hexadecimal digit, lower case. -/
def hexDigit (n : Nat) : Char :=
  if n < 10 then Char.ofNat (48 + n) else Char.ofNat (87 + n)

/-- The JSON escape of one character (`QuoteJSONString`). -/
def quoteChar (c : Char) : List Char :=
  if c = '"' then ['\\', '"']
  else if c = '\\' then ['\\', '\\']
  else if c.toNat = 8 then ['\\', 'b']
  else if c.toNat = 9 then ['\\', 't']
  else if c.toNat = 10 then ['\\', 'n']
  else if c.toNat = 12 then ['\\', 'f']
  else if c.toNat = 13 then ['\\', 'r']
  else if c.toNat < 32 then ['\\', 'u', '0', '0', hexDigit (c.toNat / 16), hexDigit (c.toNat % 16)]
  else [c]

/-- The quoted JSON form of a string (`QuoteJSONString`). -/
def quote (s : String) : String :=
  String.mk ('"' :: (s.toList.flatMap quoteChar ++ ['"']))

/-- Assembly of the serialized members of an array or object between its
brackets (the tail of `SerializeJSONObject` and `SerializeJSONArray`):
`stepback` is the indentation of the enclosing level. -/
def wrap (gap stepback : String) (opening closing : String) (parts : List String) : String :=
  if parts.isEmpty then opening ++ closing
  else if gap = "" then opening ++ String.intercalate "," parts ++ closing
  else opening ++ "\n" ++ (stepback ++ gap)
    ++ String.intercalate (",\n" ++ (stepback ++ gap)) parts ++ "\n" ++ stepback ++ closing

mutual
/-- The algorithm `SerializeJSONProperty` with indentation unit `gap` at
indentation `indent`; `none` is the result `undefined`. -/
def serialize (gap : String) (indent : String) : JSValue → Option String
  | .undefined => none
  | .null => some "null"
  | .bool b => some (if b then "true" else "false")
  | .num n => some (toString n)
  | .str s => some (quote s)
  | .arr xs => some (wrap gap indent "[" "]" (serializeElems gap (indent ++ gap) xs))
  | .obj ps => some (wrap gap indent "\x7b" "\x7d" (serializeMembers gap (indent ++ gap) ps))
/-- The serialized elements of an array: `undefined` is written `null`. -/
def serializeElems (gap : String) (indent : String) : List JSValue → List String
  | [] => []
  | x :: xs => (serialize gap indent x).getD "null" :: serializeElems gap indent xs
/-- The serialized members of an object: a member whose value is `undefined`
is left out. -/
def serializeMembers (gap : String) (indent : String) : List (String × JSValue) → List String
  | [] => []
  | (k, v) :: rest =>
    match serialize gap indent v with
    | none => serializeMembers gap indent rest
    | some s => (quote k ++ (if gap = "" then ":" else ": ") ++ s) :: serializeMembers gap indent rest
end

/-- The call `JSON.stringify(v)` (`gap = ""`) or `JSON.stringify(v, null, 2)`
(`gap` two spaces): a string, or `undefined`. -/
def JSON_stringify (gap : String) (v : JSValue) : JSValue :=
  match serialize gap "" v with
  | some s => .str s
  | none => .undefined

/-- The call `JSON.stringify(v, null, 2)`. -/
def pretty (v : JSValue) : JSValue := JSON_stringify "  " v

/-! ## `JSON.parse` on the modelled values -/

/-- Removal of leading JSON white space. -/
def skipWs : List Char → List Char
  | [] => []
  | c :: rest => if c = ' ' ∨ c = '\t' ∨ c = '\n' ∨ c = '\r' then skipWs rest else c :: rest

/-- The value of a hexadecimal digit. -/
def hexVal (c : Char) : Option Nat :=
  if '0' ≤ c ∧ c ≤ '9' then some (c.toNat - 48)
  else if 'a' ≤ c ∧ c ≤ 'f' then some (c.toNat - 87)
  else if 'A' ≤ c ∧ c ≤ 'F' then some (c.toNat - 55)
  else none

/-- The characters of a JSON string after its opening quote, up to and
including the closing quote; returns the string and the remaining input. -/
def parseChars (acc : List Char) : List Char → Option (String × List Char)
  | [] => none
  | '"' :: rest => some (String.mk acc.reverse, rest)
  | '\\' :: 'u' :: a :: b :: c :: d :: rest =>
    match hexVal a, hexVal b, hexVal c, hexVal d with
    | some x, some y, some z, some w =>
      parseChars (Char.ofNat (((x * 16 + y) * 16 + z) * 16 + w) :: acc) rest
    | _, _, _, _ => none
  | '\\' :: e :: rest =>
    if e = '"' then parseChars ('"' :: acc) rest
    else if e = '\\' then parseChars ('\\' :: acc) rest
    else if e = '/' then parseChars ('/' :: acc) rest
    else if e = 'b' then parseChars (Char.ofNat 8 :: acc) rest
    else if e = 'f' then parseChars (Char.ofNat 12 :: acc) rest
    else if e = 'n' then parseChars ('\n' :: acc) rest
    else if e = 'r' then parseChars ('\r' :: acc) rest
    else if e = 't' then parseChars ('\t' :: acc) rest
    else none
  | c :: rest => if c.toNat < 32 then none else parseChars (c :: acc) rest

/-- The leading decimal digits of the input, and the rest. -/
def takeDigits : List Char → List Char × List Char
  | [] => ([], [])
  | c :: rest =>
    if c.isDigit then ((takeDigits rest).1.cons c, (takeDigits rest).2) else ([], c :: rest)

/-- An integer literal of the JSON number grammar (no leading zero, no
fraction or exponent part, which denote doubles outside the model). -/
def parseInt (cs : List Char) : Option (Nat × List Char) :=
  match takeDigits cs with
  | ([], _) => none
  | (d :: ds, rest) =>
    if (d = '0' ∧ ds ≠ []) ∨ rest.head? = some '.' ∨ rest.head? = some 'e'
        ∨ rest.head? = some 'E' then none
    else some (digitsVal (d :: ds), rest)

mutual
/-- One JSON value at the head of the input (after white space); `fuel`
bounds the nesting work and the input length suffices. -/
def parseValue : Nat → List Char → Option (JSValue × List Char)
  | 0, _ => none
  | fuel + 1, cs =>
    match skipWs cs with
    | 'n' :: 'u' :: 'l' :: 'l' :: rest => some (.null, rest)
    | 't' :: 'r' :: 'u' :: 'e' :: rest => some (.bool true, rest)
    | 'f' :: 'a' :: 'l' :: 's' :: 'e' :: rest => some (.bool false, rest)
    | '"' :: rest => (parseChars [] rest).map (fun r => (.str r.1, r.2))
    | '-' :: rest => (parseInt rest).map (fun r => (.num (-(r.1 : Int)), r.2))
    | '[' :: rest =>
      match skipWs rest with
      | ']' :: rest' => some (.arr [], rest')
      | _ => (parseElems fuel rest).map (fun r => (.arr r.1, r.2))
    | '{' :: rest =>
      match skipWs rest with
      | '}' :: rest' => some (.obj [], rest')
      | _ => (parseMembers fuel [] rest).map (fun r => (.obj r.1, r.2))
    | rest => (parseInt rest).map (fun r => (.num (r.1 : Int), r.2))
/-- The elements of a non-empty array, up to and including `]`. -/
def parseElems : Nat → List Char → Option (List JSValue × List Char)
  | 0, _ => none
  | fuel + 1, cs =>
    match parseValue fuel cs with
    | none => none
    | some (v, rest) =>
      match skipWs rest with
      | ',' :: rest' => (parseElems fuel rest').map (fun r => (v :: r.1, r.2))
      | ']' :: rest' => some ([v], rest')
      | _ => none
/-- The members of a non-empty object, up to and including `}`; `acc` holds
the properties defined so far. -/
def parseMembers : Nat → List (String × JSValue) → List Char →
    Option (List (String × JSValue) × List Char)
  | 0, _, _ => none
  | fuel + 1, acc, cs =>
    match skipWs cs with
    | '"' :: rest =>
      match parseChars [] rest with
      | none => none
      | some (k, rest1) =>
        match skipWs rest1 with
        | ':' :: rest2 =>
          match parseValue fuel rest2 with
          | none => none
          | some (v, rest3) =>
            match skipWs rest3 with
            | ',' :: rest4 => parseMembers fuel (defineProp acc k v) rest4
            | '}' :: rest4 => some (defineProp acc k v, rest4)
            | _ => none
        | _ => none
    | _ => none
end

/-- The call `JSON.parse(text)` on the modelled values: `none` is the thrown
`SyntaxError`. -/
def JSON_parse (text : String) : Option JSValue :=
  match parseValue (2 * text.length + 2) text.toList with
  | some (v, rest) => if skipWs rest = [] then some v else none
  | none => none

/-! ## The component `DataForm` -/

/-- The table `endpointMapping` (lines 9-13). -/
def endpointMapping : List (String × JSValue) :=
  [("Notion", .str "notion"), ("Airtable", .str "airtable"), ("HubSpot", .str "hubspot")]

/-- The constant `endpoint = endpointMapping[integrationType]` (line 17):
`undefined` for a type that is not a key of the table. -/
def endpoint (integrationType : String) : JSValue :=
  lookupProp integrationType endpointMapping

/-- The origin of the request URL in the template literal of line 23. -/
def origin : String := "http://localhost:8000"

/-- The path of the request URL in the template literal of line 23. -/
def loadPath (integrationType : String) : String :=
  "/integrations/" ++ toStringJS (endpoint integrationType) ++ "/load"

/-- The request URL, the template literal of line 23. -/
def loadUrl (integrationType : String) : String :=
  origin ++ loadPath integrationType

/-- The observable actions of the component, as they appear in a run. -/
inductive Effect where
  /-- The call `axios.post(url, formData)`, with the form field `credentials`. -/
  | post (url : String) (credentials : String)
  /-- A call of `console.log`. -/
  | log (msg : String)
  /-- A call of the parent callback `setIntegrationParams` with the closure of
  lines 28-31. -/
  | setIntegrationParams
  /-- A call of the state setter `setLoadedData`. -/
  | setLoadedData (v : JSValue)
  /-- A call of `alert`. -/
  | alert (msg : JSValue)

/-- A function from the previous params to the new ones, which may throw. -/
abbrev Updater := JSValue → Except Thrown JSValue

/-- The parent callback, by what one call of it does with the closure it
receives before it returns: it may apply the closure, and it returns or
throws. A callback that keeps the closure for later is one that ignores it
here. -/
abbrev Callback := Updater → Except Thrown Unit

/-- The closure of lines 28-31,
`prev => ({...prev, credentials: JSON.parse(responseData.new_credentials)})`,
applied to `prev` when the captured variable `responseData` holds the given
value. -/
def updater (parse : String → Option JSValue) (responseData : JSValue) : Updater :=
  fun prev =>
    match getProp responseData "new_credentials" with
    | .error e => .error e
    | .ok nc =>
      match parse (toStringJS nc) with
      | none => .error .SyntaxError
      | some c => .ok (.obj (defineProp (ownEnumerable prev) "credentials" c))

/-- The record of one activation of `handleLoad`. -/
structure Run where
  /-- The effects performed, in order. -/
  effects : List Effect
  /-- The value of the local variable `responseData` when the activation ended
  (`undefined` if it was never bound). -/
  responseData : JSValue
  /-- The exception that reached the `catch` of line 36, if any. -/
  thrown : Option Thrown

/-- The argument of `alert` in line 37,
`e?.response?.data?.detail || "Error loading data"`. -/
def errorDetail : Thrown → JSValue
  | .value v => optProp (optProp (optProp v "response") "data") "detail"
  | _ => .undefined

/-- The argument of `alert` in line 37. -/
def alertArg (e : Thrown) : JSValue :=
  if (errorDetail e).toBoolean then errorDetail e else .str "Error loading data"

/-- Line 35: `setLoadedData(JSON.stringify(responseData, null, 2))`, after the
effects `done`. -/
def display (done : List Effect) (responseData : JSValue) : Run :=
  { effects := done ++ [.setLoadedData (pretty responseData)],
    responseData := responseData, thrown := none }

/-- Lines 33-35: `responseData = responseData.data`, then line 35. -/
def selectData (done : List Effect) (responseData : JSValue) : Run :=
  match getProp responseData "data" with
  | .error e => { effects := done, responseData := responseData, thrown := some e }
  | .ok d => display done d

/-- Lines 24-35, the body of the `try` after the response arrived with
`response.data = body`. -/
def tryBody (parse : String → Option JSValue) (integrationType : String)
    (setIntegrationParams : Option Callback) (body : JSValue) : Run :=
  if integrationType = "HubSpot" then
    match getProp body "new_credentials" with
    | .error e => { effects := [], responseData := body, thrown := some e }
    | .ok nc =>
      match (if nc.toBoolean then setIntegrationParams else none) with
      | some callback =>
        match callback (updater parse body) with
        | .error e =>
          { effects := [.log "Token refreshed. Updating frontend state...",
                        .setIntegrationParams],
            responseData := body, thrown := some e }
        | .ok _ =>
          selectData [.log "Token refreshed. Updating frontend state...",
                      .setIntegrationParams] body
      | none => selectData [] body
  else display [] body

/-- Lines 36-38: the `catch` shows the alert for the exception `e`. -/
def catchAlert (done : List Effect) (responseData : JSValue) (e : Thrown) : Run :=
  { effects := done ++ [.alert (alertArg e)], responseData := responseData, thrown := some e }

/-- Lines 21-23 up to the `await`: the request that is issued. -/
def request (integrationType : String) (credentials : JSValue) : Effect :=
  .post (loadUrl integrationType) (toStringJS (JSON_stringify "" credentials))

/-- Lines 24-38: what `handleLoad` does once the promise of `axios.post` is
settled, fulfilled with a response of body `body` (`.ok body`) or rejected
with `e` (`.error e`). -/
def resume (parse : String → Option JSValue) (integrationType : String)
    (setIntegrationParams : Option Callback) (settled : Except Thrown JSValue) : Run :=
  match settled with
  | .error e => catchAlert [] .undefined e
  | .ok body =>
    match (tryBody parse integrationType setIntegrationParams body).thrown with
    | some e =>
      catchAlert (tryBody parse integrationType setIntegrationParams body).effects
        (tryBody parse integrationType setIntegrationParams body).responseData e
    | none => tryBody parse integrationType setIntegrationParams body

/-- One whole activation of `handleLoad` (lines 19-39) whose request settles
as `settled`. -/
def handleLoad (parse : String → Option JSValue) (integrationType : String)
    (credentials : JSValue) (setIntegrationParams : Option Callback)
    (settled : Except Thrown JSValue) : Run :=
  { resume parse integrationType setIntegrationParams settled with
    effects := request integrationType credentials
      :: (resume parse integrationType setIntegrationParams settled).effects }

/-- The click handler of the button "Clear Data" (line 61). -/
def clearData : List Effect := [.setLoadedData .null]

/-- The initial value of the state `loadedData` (line 16). -/
def initialLoadedData : JSValue := .null

/-- The state `loadedData` after a list of effects, from its value before:
each `setLoadedData` replaces it. -/
def loadedDataAfter (before : JSValue) : List Effect → JSValue
  | [] => before
  | .setLoadedData v :: rest => loadedDataAfter v rest
  | _ :: rest => loadedDataAfter before rest

/-- The text shown by the text area, `loadedData || ''` (line 46). -/
def textAreaValue (loadedData : JSValue) : JSValue :=
  if loadedData.toBoolean then loadedData else .str ""

/-- The arguments of the calls of `setLoadedData` in a list of effects. -/
def setLoadedDataCalls : List Effect → List JSValue
  | [] => []
  | .setLoadedData v :: rest => v :: setLoadedDataCalls rest
  | _ :: rest => setLoadedDataCalls rest

/-- The arguments of the calls of `alert` in a list of effects. -/
def alerts : List Effect → List JSValue
  | [] => []
  | .alert m :: rest => m :: alerts rest
  | _ :: rest => alerts rest

/-- The number of calls of the parent callback in a list of effects. -/
def callbackCalls : List Effect → Nat
  | [] => 0
  | .setIntegrationParams :: rest => callbackCalls rest + 1
  | _ :: rest => callbackCalls rest

/-- The requests issued in a list of effects, by URL. -/
def posts : List Effect → List String
  | [] => []
  | .post url _ :: rest => url :: posts rest
  | _ :: rest => posts rest

/-! ## The widget as a transition system -/

/-- A load whose request is in flight: its number (the count of loads started
before it) and the props its activation of `handleLoad` closed over. -/
structure Pending where
  id : Nat
  integrationType : String
  setIntegrationParams : Option Callback

/-- The state of a mounted widget: the React state `loadedData`, the loads in
flight, and the number of loads started so far. -/
structure Widget where
  loadedData : JSValue
  pending : List Pending
  started : Nat

/-- The events of the widget: a click on "Load Data" under the current props,
the settling of the request of the load numbered `id`, a click on
"Clear Data". -/
inductive Event where
  | load (integrationType : String) (credentials : JSValue)
      (setIntegrationParams : Option Callback)
  | settle (id : Nat) (settled : Except Thrown JSValue)
  | clear

/-- The widget on mount. -/
def Widget.initial : Widget :=
  { loadedData := initialLoadedData, pending := [], started := 0 }

/-- The load in flight with the given number, if any. -/
def findPending (id : Nat) : List Pending → Option Pending
  | [] => none
  | p :: rest => if p.id = id then some p else findPending id rest

/-- Removal of the load with the given number from those in flight. -/
def removePending (id : Nat) : List Pending → List Pending
  | [] => []
  | p :: rest => if p.id = id then rest else p :: removePending id rest

/-- One transition: a load is started at any time (nothing disables the
button, nothing cancels an earlier request); a request in flight settles and
`handleLoad` resumes; the display is cleared. `none` when the event is not
enabled (no such request in flight). -/
def step (parse : String → Option JSValue) (w : Widget) : Event → Option Widget
  | .load integrationType _ setIntegrationParams =>
    some { w with
      pending := w.pending ++ [{ id := w.started, integrationType := integrationType,
                                 setIntegrationParams := setIntegrationParams }],
      started := w.started + 1 }
  | .settle id settled =>
    match findPending id w.pending with
    | none => none
    | some p =>
      some { w with
        loadedData := loadedDataAfter w.loadedData
          (resume parse p.integrationType p.setIntegrationParams settled).effects,
        pending := removePending id w.pending }
  | .clear => some { w with loadedData := loadedDataAfter w.loadedData clearData }

/-- The state reached from `w` by a sequence of events, `none` if one of them
is not enabled. -/
def run (parse : String → Option JSValue) (w : Widget) : List Event → Option Widget
  | [] => some w
  | e :: rest =>
    match step parse w e with
    | none => none
    | some w' => run parse w' rest

/-- The props of the load numbered `k` in a history: those of its `k`-th
`load` event, counting from `0`. -/
def loadProps : List Event → Nat → Option (String × Option Callback)
  | [], _ => none
  | .load integrationType _ setIntegrationParams :: _, 0 =>
    some (integrationType, setIntegrationParams)
  | .load _ _ _ :: rest, k + 1 => loadProps rest k
  | _ :: rest, k => loadProps rest k

/-- The value a settled request makes `handleLoad` display, if it displays
one. -/
def shown (parse : String → Option JSValue) (props : String × Option Callback)
    (settled : Except Thrown JSValue) : Option JSValue :=
  (setLoadedDataCalls (resume parse props.1 props.2 settled).effects).getLast?

/-- The value an event of the history `all` writes to the display at the
moment it happens: a clear writes `null`, the settling of a request writes
what its load displays, the start of a load writes nothing. -/
def written (parse : String → Option JSValue) (all : List Event) : Event → Option JSValue
  | .clear => some .null
  | .load _ _ _ => none
  | .settle id settled =>
    match loadProps all id with
    | none => none
    | some props => shown parse props settled

/-- The display by order of arrival: the last value written in the history,
the initial value if none was. -/
def displayByArrival (parse : String → Option JSValue) (all : List Event) : JSValue :=
  ((all.filterMap (written parse all)).getLast?).getD initialLoadedData

/-- The value displayed by the load numbered `k` with the given props, if its
request has settled in the history and the load displayed one. -/
def outcomeOf (parse : String → Option JSValue) (k : Nat)
    (props : String × Option Callback) : List Event → Option JSValue
  | [] => none
  | .settle id settled :: rest =>
    if id = k then shown parse props settled else outcomeOf parse k props rest
  | _ :: rest => outcomeOf parse k props rest

/-- The writes of a history in the order in which the user started the
actions: a clear where it was pressed, the result of a successful load where
that load was started (`k` counts the loads met so far). -/
def writesByStart (parse : String → Option JSValue) (all : List Event) :
    Nat → List Event → List JSValue
  | _, [] => []
  | k, .clear :: rest => .null :: writesByStart parse all k rest
  | k, .load integrationType _ setIntegrationParams :: rest =>
    (outcomeOf parse k (integrationType, setIntegrationParams) all).toList
      ++ writesByStart parse all (k + 1) rest
  | k, .settle _ _ :: rest => writesByStart parse all k rest

/-- The display the invariant of the data model describes: the result of the
most recently started load that succeeded, or empty if a clear was pressed
after that load was started; the initial value if neither happened. -/
def displayByStart (parse : String → Option JSValue) (all : List Event) : JSValue :=
  ((writesByStart parse all 0 all).getLast?).getD initialLoadedData

/-! ## Example histories -/

/-- The number of loads started in a history. -/
def loadCount : List Event → Nat
  | [] => 0
  | .load _ _ _ :: rest => loadCount rest + 1
  | _ :: rest => loadCount rest

/-- A history in which the response of the first load arrives after the
response of the second. -/
def overtaken : List Event :=
  [.load "Notion" (.obj []) none, .load "Notion" (.obj []) none,
   .settle 1 (.ok (.num 2)), .settle 0 (.ok (.num 1))]

/-- A history in which clear is pressed while a load is in flight. -/
def clearedInFlight : List Event :=
  [.load "Notion" (.obj []) none, .clear, .settle 0 (.ok (.num 1))]

/-! ## Example values -/

/-- The payload `{"x": 1}`. -/
def examplePayload : JSValue := .obj [("x", .num 1)]

/-- The response body `{"data": {"x": 1}, "new_credentials": "{\"token\":\"t2\"}"}`. -/
def refreshedBody : JSValue :=
  .obj [("data", examplePayload), ("new_credentials", .str "\x7b\"token\":\"t2\"\x7d")]

/-- The response body `{"data": {"x": 1}}`. -/
def plainBody : JSValue := .obj [("data", examplePayload)]

/-- The response body `{"data": {"x": 1}, "new_credentials": "{bad"}`, whose
`new_credentials` is a string that is not valid JSON. -/
def malformedBody : JSValue :=
  .obj [("data", examplePayload), ("new_credentials", .str "\x7bbad")]

/-- The rejection value of a request answered with a non-2xx status and the
given body: an error object whose `response.data` is the body. -/
def httpError (status : Int) (body : JSValue) : Thrown :=
  .value (.obj [("message", .str "Request failed"),
                ("response", .obj [("data", body), ("status", .num status)])])

/-- The rejection value of a request that got no response: an error object
without `response`. -/
def networkError : Thrown :=
  .value (.obj [("message", .str "Network Error")])

/-- A parent callback that keeps the closure for later and returns, as a state
setter that queues the update does. -/
def deferring : Callback := fun _ => .ok ()

/-- A parent callback that applies the closure to the params `prev` before it
returns and lets an exception of the closure propagate. -/
def applying (prev : JSValue) : Callback := fun u =>
  match u prev with
  | .error e => .error e
  | .ok _ => .ok ()

/-! ## Lemmas on effect lists -/

theorem loadedDataAfter_append (before : JSValue) (xs ys : List Effect) :
    loadedDataAfter before (xs ++ ys) = loadedDataAfter (loadedDataAfter before xs) ys := by
  induction xs generalizing before with
  | nil => rfl
  | cons x xs ih => cases x <;> simp [loadedDataAfter, ih]

theorem setLoadedDataCalls_append (xs ys : List Effect) :
    setLoadedDataCalls (xs ++ ys) = setLoadedDataCalls xs ++ setLoadedDataCalls ys := by
  induction xs with
  | nil => rfl
  | cons x xs ih => cases x <;> simp [setLoadedDataCalls, ih]

theorem loadedDataAfter_eq_getLast (before : JSValue) (xs : List Effect) :
    loadedDataAfter before xs = ((setLoadedDataCalls xs).getLast?).getD before := by
  induction xs generalizing before with
  | nil => rfl
  | cons x xs ih =>
    cases x with
    | setLoadedData v =>
      simp only [loadedDataAfter, setLoadedDataCalls, ih]
      cases h : setLoadedDataCalls xs with
      | nil => simp
      | cons y ys =>
        simp only [List.getLast?_cons_cons]
        cases hl : (y :: ys).getLast? with
        | none => simp at hl
        | some z => rfl
    | post u c => simp [loadedDataAfter, setLoadedDataCalls, ih]
    | log m => simp [loadedDataAfter, setLoadedDataCalls, ih]
    | setIntegrationParams => simp [loadedDataAfter, setLoadedDataCalls, ih]
    | alert m => simp [loadedDataAfter, setLoadedDataCalls, ih]

/-- A property read on an object returns the looked-up value. -/
theorem getProp_obj (ps : List (String × JSValue)) (k : String) :
    getProp (.obj ps) k = .ok (lookupProp k ps) := rfl

/-- The run of `tryBody` for HubSpot on a body that is an object. -/
theorem tryBody_hubspot_obj (parse : String → Option JSValue) (cb : Option Callback)
    (ps : List (String × JSValue)) :
    tryBody parse "HubSpot" cb (.obj ps) =
      match (if (lookupProp "new_credentials" ps).toBoolean then cb else none) with
      | some callback =>
        match callback (updater parse (.obj ps)) with
        | .error e =>
          { effects := [.log "Token refreshed. Updating frontend state...",
                        .setIntegrationParams],
            responseData := .obj ps, thrown := some e }
        | .ok _ =>
          display [.log "Token refreshed. Updating frontend state...",
                   .setIntegrationParams] (lookupProp "data" ps)
      | none => display [] (lookupProp "data" ps) := rfl

/-- The run of `tryBody` for an integration type other than HubSpot. -/
theorem tryBody_other (parse : String → Option JSValue) (t : String)
    (cb : Option Callback) (b : JSValue) (ht : t ≠ "HubSpot") :
    tryBody parse t cb b = display [] b := by
  simp [tryBody, ht]

/-! ## Successful loads -/

/-- C1: for Notion and Airtable, a load whose request succeeds with body `b`
does not fail, calls `setLoadedData` exactly once, with
`JSON.stringify(b, null, 2)` of the whole body, and that is the display state
afterwards, whatever fields `b` has. -/
theorem C1_other_types_display_whole_body (parse : String → Option JSValue) (t : String)
    (credentials : JSValue) (cb : Option Callback) (b before : JSValue)
    (ht : t = "Notion" ∨ t = "Airtable") :
    (handleLoad parse t credentials cb (.ok b)).thrown = none
    ∧ setLoadedDataCalls (handleLoad parse t credentials cb (.ok b)).effects = [pretty b]
    ∧ loadedDataAfter before (handleLoad parse t credentials cb (.ok b)).effects = pretty b := by
  have hne : t ≠ "HubSpot" := by
    rcases ht with h | h <;> subst h <;> decide
  simp [handleLoad, resume, tryBody_other parse t cb b hne, display, request,
    setLoadedDataCalls, loadedDataAfter]

/-- Instance of C1: a Notion load of the body
`{"data": {"x": 1}, "new_credentials": ...}` displays the whole body, not its
`data` field. -/
theorem C1_other_types_display_whole_body_witness :
    loadedDataAfter initialLoadedData
        (handleLoad JSON_parse "Notion" (.obj []) (some deferring) (.ok refreshedBody)).effects
      = pretty refreshedBody
    ∧ pretty refreshedBody
      = .str "\x7b\n  \"data\": \x7b\n    \"x\": 1\n  \x7d,\n  \"new_credentials\": \"\x7b\\\"token\\\":\\\"t2\\\"\x7d\"\n\x7d" :=
  ⟨(C1_other_types_display_whole_body JSON_parse "Notion" (.obj []) (some deferring)
      refreshedBody initialLoadedData (Or.inl rfl)).2.2, rfl⟩

/-- C2: for HubSpot and a response body that is an object, a load that
succeeds (no exception reaches the `catch`) calls `setLoadedData` exactly once,
with `JSON.stringify(body.data, null, 2)`, and that is the display state
afterwards, whether or not the body has `new_credentials`. -/
theorem C2_hubspot_displays_data (parse : String → Option JSValue) (credentials : JSValue)
    (cb : Option Callback) (ps : List (String × JSValue)) (before : JSValue)
    (hok : (handleLoad parse "HubSpot" credentials cb (.ok (.obj ps))).thrown = none) :
    setLoadedDataCalls (handleLoad parse "HubSpot" credentials cb (.ok (.obj ps))).effects
      = [pretty (lookupProp "data" ps)]
    ∧ loadedDataAfter before (handleLoad parse "HubSpot" credentials cb (.ok (.obj ps))).effects
      = pretty (lookupProp "data" ps) := by
  simp only [handleLoad, resume, tryBody_hubspot_obj] at hok ⊢
  cases hcb : (if (lookupProp "new_credentials" ps).toBoolean then cb else none) with
  | none => simp [hcb, display, setLoadedDataCalls, loadedDataAfter, request]
  | some f =>
    simp only [hcb] at hok ⊢
    cases hf : f (updater parse (.obj ps)) with
    | error e => simp [hf, catchAlert] at hok
    | ok u => simp [hf, display, setLoadedDataCalls, loadedDataAfter, request]

/-- Instance of C2: the bodies `{"data": {"x": 1}, "new_credentials": ...}` and
`{"data": {"x": 1}}` both display the pretty-printed `{"x": 1}`. -/
theorem C2_hubspot_displays_data_witness :
    (loadedDataAfter initialLoadedData
        (handleLoad JSON_parse "HubSpot" (.obj []) (some deferring) (.ok refreshedBody)).effects
      = .str "\x7b\n  \"x\": 1\n\x7d")
    ∧ (loadedDataAfter initialLoadedData
        (handleLoad JSON_parse "HubSpot" (.obj []) (some deferring) (.ok plainBody)).effects
      = .str "\x7b\n  \"x\": 1\n\x7d") :=
  ⟨(C2_hubspot_displays_data JSON_parse (.obj []) (some deferring) _ initialLoadedData
      (show (handleLoad JSON_parse "HubSpot" (.obj []) (some deferring)
        (.ok refreshedBody)).thrown = none from rfl)).2,
   (C2_hubspot_displays_data JSON_parse (.obj []) (some deferring) _ initialLoadedData
      (show (handleLoad JSON_parse "HubSpot" (.obj []) (some deferring)
        (.ok plainBody)).thrown = none from rfl)).2⟩

/-! ## The parent callback -/

theorem callbackCalls_append (xs ys : List Effect) :
    callbackCalls (xs ++ ys) = callbackCalls xs + callbackCalls ys := by
  induction xs with
  | nil => simp [callbackCalls]
  | cons x xs ih =>
    cases x with
    | setIntegrationParams =>
      show callbackCalls (xs ++ ys) + 1 = callbackCalls xs + 1 + callbackCalls ys
      omega
    | post u c => exact ih
    | log m => exact ih
    | setLoadedData v => exact ih
    | alert m => exact ih

/-- The effects of `selectData` are those already done, followed by at most a
call of `setLoadedData`. -/
theorem callbackCalls_selectData (done : List Effect) (v : JSValue) :
    callbackCalls (selectData done v).effects = callbackCalls done := by
  unfold selectData
  cases getProp v "data" <;> simp [display, callbackCalls_append, callbackCalls]

/-- The number of calls of the parent callback in the body of the `try`. -/
theorem callbackCalls_tryBody (parse : String → Option JSValue) (t : String)
    (cb : Option Callback) (body : JSValue) :
    callbackCalls (tryBody parse t cb body).effects =
      if t = "HubSpot"
          ∧ (match getProp body "new_credentials" with
              | .ok nc => nc.toBoolean
              | .error _ => false) = true
          ∧ cb.isSome = true then 1 else 0 := by
  unfold tryBody
  by_cases ht : t = "HubSpot"
  · simp only [ht, if_true, true_and]
    cases hg : getProp body "new_credentials" with
    | error e => simp [callbackCalls]
    | ok nc =>
      cases hb : nc.toBoolean with
      | false => simp [hb, callbackCalls_selectData, callbackCalls]
      | true =>
        cases cb with
        | none => simp [hb, callbackCalls_selectData, callbackCalls]
        | some f =>
          cases hf : f (updater parse body) <;>
            simp [hb, hf, callbackCalls_selectData, callbackCalls]
  · simp [ht, display, callbackCalls]

/-- The read `body.new_credentials` gives a truthy value. -/
theorem truthy_read_iff (body : JSValue) :
    (match getProp body "new_credentials" with
      | .ok nc => nc.toBoolean
      | .error _ => false) = true
    ↔ ∃ nc, getProp body "new_credentials" = .ok nc ∧ nc.toBoolean = true := by
  cases getProp body "new_credentials" <;> simp

/-- The `catch` adds no call of the parent callback. -/
theorem callbackCalls_handleLoad (parse : String → Option JSValue) (t : String)
    (credentials : JSValue) (cb : Option Callback) (body : JSValue) :
    callbackCalls (handleLoad parse t credentials cb (.ok body)).effects
      = callbackCalls (tryBody parse t cb body).effects := by
  simp only [handleLoad, resume, request]
  cases h : (tryBody parse t cb body).thrown <;>
    simp [h, catchAlert, callbackCalls, callbackCalls_append]

/-- C3 (as the claim states it, refuted): a HubSpot response whose body has a
`new_credentials` field with the value `null`, or the empty string, does not
make `handleLoad` call the parent callback, although the request succeeded,
the field is in the body and the callback is present. -/
theorem C3_field_present_not_invoked_counterexample :
    ([("data", examplePayload), ("new_credentials", JSValue.null)].any
        (fun p => p.1 = "new_credentials")) = true
    ∧ callbackCalls (handleLoad JSON_parse "HubSpot" (.obj []) (some deferring)
        (.ok (.obj [("data", examplePayload), ("new_credentials", .null)]))).effects = 0
    ∧ callbackCalls (handleLoad JSON_parse "HubSpot" (.obj []) (some deferring)
        (.ok (.obj [("data", examplePayload), ("new_credentials", .str "")]))).effects = 0 :=
  ⟨by decide, rfl, rfl⟩

/-- C3 (amended): in every `handleLoad` whose request succeeds the parent
callback is called at most once, and it is called exactly when the integration
type is HubSpot, the read `body.new_credentials` gives a truthy value, and the
callback is present. -/
theorem C3_callback_iff_truthy_new_credentials (parse : String → Option JSValue)
    (t : String) (credentials : JSValue) (cb : Option Callback) (body : JSValue) :
    callbackCalls (handleLoad parse t credentials cb (.ok body)).effects ≤ 1
    ∧ (callbackCalls (handleLoad parse t credentials cb (.ok body)).effects = 1
        ↔ (t = "HubSpot"
          ∧ (∃ nc, getProp body "new_credentials" = .ok nc ∧ nc.toBoolean = true)
          ∧ cb.isSome = true)) := by
  rw [callbackCalls_handleLoad, callbackCalls_tryBody, ← truthy_read_iff]
  constructor
  · split <;> omega
  · split
    · rename_i h
      simp [h]
    · rename_i h
      simp only [h, iff_false]
      omega

/-- In a rejected request `handleLoad` never calls the parent callback. -/
theorem callbackCalls_rejected (parse : String → Option JSValue) (t : String)
    (credentials : JSValue) (cb : Option Callback) (e : Thrown) :
    callbackCalls (handleLoad parse t credentials cb (.error e)).effects = 0 := rfl

/-! ## The closure passed to the parent callback -/

theorem lookupProp_replaceProp_same (k : String) (v : JSValue) (ps : List (String × JSValue))
    (h : ps.any (fun p => p.1 = k) = true) : lookupProp k (replaceProp k v ps) = v := by
  induction ps with
  | nil => simp at h
  | cons p ps ih =>
    obtain ⟨k1, v1⟩ := p
    by_cases hk : k1 = k
    · simp [replaceProp, lookupProp, hk]
    · simp only [List.any_cons, hk, decide_False, Bool.false_or] at h
      simp [replaceProp, lookupProp, hk, ih h]

theorem lookupProp_replaceProp_other (k j : String) (v : JSValue)
    (ps : List (String × JSValue)) (hj : j ≠ k) :
    lookupProp j (replaceProp k v ps) = lookupProp j ps := by
  induction ps with
  | nil => rfl
  | cons p ps ih =>
    obtain ⟨k1, v1⟩ := p
    by_cases hk : k1 = k
    · have hkj : ¬ k = j := fun h => hj h.symm
      have hkj1 : ¬ k1 = j := by rw [hk]; exact hkj
      simp [replaceProp, lookupProp, hk, hkj]
    · by_cases hj1 : k1 = j
      · subst hj1
        simp [replaceProp, lookupProp, hk]
      · simp [replaceProp, lookupProp, hk, hj1, ih]

theorem lookupProp_append_absent (k : String) (v : JSValue) (ps : List (String × JSValue))
    (h : ps.any (fun p => p.1 = k) = false) : lookupProp k (ps ++ [(k, v)]) = v := by
  induction ps with
  | nil => simp [lookupProp]
  | cons p ps ih =>
    obtain ⟨k1, v1⟩ := p
    simp only [List.any_cons, Bool.or_eq_false_iff, decide_eq_false_iff_not] at h
    simp [lookupProp, h.1, ih h.2]

theorem lookupProp_append_other (k j : String) (v : JSValue) (ps : List (String × JSValue))
    (hj : j ≠ k) : lookupProp j (ps ++ [(k, v)]) = lookupProp j ps := by
  induction ps with
  | nil =>
    have hkj : ¬ k = j := fun h => hj h.symm
    simp [lookupProp, hkj]
  | cons p ps ih =>
    obtain ⟨k1, v1⟩ := p
    by_cases hj1 : k1 = j <;> simp [lookupProp, hj1, ih]

/-- The key `credentials` is not an array index. -/
theorem arrayIndex_credentials : arrayIndex? "credentials" = none := by decide

/-- While the variable `responseData` still holds a body whose
`new_credentials` is a string that parses to `c`, the closure returns the
previous params with `credentials` set to `c` and every other property
unchanged. -/
theorem updater_while_body_bound (parse : String → Option JSValue)
    (ps prev : List (String × JSValue)) (s : String) (c : JSValue)
    (hnc : lookupProp "new_credentials" ps = .str s) (hparse : parse s = some c) :
    ∃ next, updater parse (.obj ps) (.obj prev) = .ok (.obj next)
      ∧ lookupProp "credentials" next = c
      ∧ ∀ k, k ≠ "credentials" → lookupProp k next = lookupProp k prev := by
  refine ⟨defineProp prev "credentials" c, ?_, ?_, ?_⟩
  · simp [updater, getProp_obj, hnc, toStringJS, hparse, ownEnumerable]
  · unfold defineProp
    cases h : prev.any (fun p => p.1 = "credentials") with
    | true => simpa using lookupProp_replaceProp_same "credentials" c prev h
    | false =>
      simpa [arrayIndex_credentials] using lookupProp_append_absent "credentials" c prev h
  · intro k hk
    unfold defineProp
    cases h : prev.any (fun p => p.1 = "credentials") with
    | true => simpa using lookupProp_replaceProp_other "credentials" k c prev hk
    | false =>
      simpa [arrayIndex_credentials] using lookupProp_append_other "credentials" k c prev hk

/-- C4 (evaluation of the code): for the HubSpot response
`{"data": {"x": 1}, "new_credentials": "{\"token\":\"t2\"}"}` the closure handed
to the parent callback gives the merged params while `handleLoad` waits for
the callback to return, but `handleLoad` then reassigns the captured variable
`responseData` to `{"x": 1}` (line 33), and the same closure applied after that
reads `new_credentials` of `{"x": 1}`, parses the text `undefined` and throws a
`SyntaxError`. -/
theorem C4_closure_after_reassignment :
    updater JSON_parse refreshedBody (.obj [("user", .str "u"), ("credentials", .null)])
      = .ok (.obj [("user", .str "u"), ("credentials", .obj [("token", .str "t2")])])
    ∧ (handleLoad JSON_parse "HubSpot" (.obj []) (some deferring)
        (.ok refreshedBody)).responseData = examplePayload
    ∧ (handleLoad JSON_parse "HubSpot" (.obj []) (some deferring)
        (.ok refreshedBody)).thrown = none
    ∧ updater JSON_parse examplePayload (.obj [("user", .str "u"), ("credentials", .null)])
      = .error .SyntaxError :=
  ⟨rfl, rfl, rfl, rfl⟩

/-! ## Failing loads -/

theorem posts_append (xs ys : List Effect) : posts (xs ++ ys) = posts xs ++ posts ys := by
  induction xs with
  | nil => rfl
  | cons x xs ih => cases x <;> simp [posts, ih]

theorem alerts_append (xs ys : List Effect) : alerts (xs ++ ys) = alerts xs ++ alerts ys := by
  induction xs with
  | nil => rfl
  | cons x xs ih => cases x <;> simp [alerts, ih]

/-- The effects of `selectData` when it throws are those already done. -/
theorem selectData_thrown (done : List Effect) (v : JSValue) (e : Thrown)
    (h : (selectData done v).thrown = some e) : (selectData done v).effects = done := by
  unfold selectData at h ⊢
  cases hg : getProp v "data" with
  | error e1 => rfl
  | ok d => simp [hg, display] at h

/-- The alerts of `selectData` are those already done. -/
theorem alerts_selectData (done : List Effect) (v : JSValue) :
    alerts (selectData done v).effects = alerts done := by
  unfold selectData
  cases getProp v "data" <;> simp [display, alerts_append, alerts]

/-- The body of the `try` shows no alert. -/
theorem alerts_tryBody (parse : String → Option JSValue) (t : String)
    (cb : Option Callback) (body : JSValue) : alerts (tryBody parse t cb body).effects = [] := by
  unfold tryBody
  split
  · split
    · rfl
    · split
      · split
        · rfl
        · simp [alerts_selectData, alerts]
      · simp [alerts_selectData, alerts]
  · simp [display, alerts]

/-- When the body of the `try` throws, it has not called `setLoadedData`. -/
theorem setLoadedDataCalls_tryBody_thrown (parse : String → Option JSValue) (t : String)
    (cb : Option Callback) (body : JSValue) (e : Thrown)
    (h : (tryBody parse t cb body).thrown = some e) :
    setLoadedDataCalls (tryBody parse t cb body).effects = [] := by
  unfold tryBody at h ⊢
  by_cases ht : t = "HubSpot"
  · simp only [ht, if_true] at h ⊢
    cases hg : getProp body "new_credentials" with
    | error e1 => rfl
    | ok nc =>
      simp only [hg] at h ⊢
      cases hcb : (if nc.toBoolean = true then cb else none) with
      | none =>
        simp only [hcb] at h ⊢
        rw [selectData_thrown _ _ e h]
        rfl
      | some f =>
        simp only [hcb] at h ⊢
        cases hf : f (updater parse body) with
        | error e1 => rfl
        | ok u =>
          simp only [hf] at h ⊢
          rw [selectData_thrown _ _ e h]
          rfl
  · simp [ht, display] at h

/-- The outcome of `handleLoad` is that of `resume`, after the request. -/
theorem handleLoad_thrown (parse : String → Option JSValue) (t : String)
    (credentials : JSValue) (cb : Option Callback) (settled : Except Thrown JSValue) :
    (handleLoad parse t credentials cb settled).thrown = (resume parse t cb settled).thrown :=
  rfl

/-- A run of `resume` that fails has called `alert` once, with the argument
computed from the exception, and has not called `setLoadedData`. -/
theorem resume_failing (parse : String → Option JSValue) (t : String)
    (cb : Option Callback) (settled : Except Thrown JSValue) (e : Thrown)
    (h : (resume parse t cb settled).thrown = some e) :
    setLoadedDataCalls (resume parse t cb settled).effects = []
    ∧ alerts (resume parse t cb settled).effects = [alertArg e] := by
  cases settled with
  | error e1 =>
    simp only [resume, catchAlert, Option.some.injEq] at h
    subst h
    exact ⟨rfl, rfl⟩
  | ok body =>
    simp only [resume] at h ⊢
    cases ht : (tryBody parse t cb body).thrown with
    | none => simp [ht] at h
    | some e1 =>
      simp only [ht, catchAlert, Option.some.injEq] at h ⊢
      subst h
      simp [setLoadedDataCalls_append, alerts_append, alerts_tryBody,
        setLoadedDataCalls_tryBody_thrown parse t cb body e1 ht, setLoadedDataCalls, alerts]

/-- A run of `resume` that does not fail shows no alert. -/
theorem resume_succeeding (parse : String → Option JSValue) (t : String)
    (cb : Option Callback) (settled : Except Thrown JSValue)
    (h : (resume parse t cb settled).thrown = none) :
    alerts (resume parse t cb settled).effects = [] := by
  cases settled with
  | error e1 => simp [resume, catchAlert] at h
  | ok body =>
    simp only [resume] at h ⊢
    cases ht : (tryBody parse t cb body).thrown with
    | none => simp [alerts_tryBody]
    | some e1 => simp [ht, catchAlert] at h

/-- A rejected request is a failing load: the rejection value reaches the
`catch`. -/
theorem rejected_is_failing (parse : String → Option JSValue) (t : String)
    (credentials : JSValue) (cb : Option Callback) (e : Thrown) :
    (handleLoad parse t credentials cb (.error e)).thrown = some e := rfl

/-- A `handleLoad` that fails with the exception `e` has not called
`setLoadedData`, leaves the display state as it was, and has called `alert`
once, with the argument computed from `e`. -/
theorem failing_handleLoad_effects (parse : String → Option JSValue) (t : String)
    (credentials : JSValue) (cb : Option Callback) (settled : Except Thrown JSValue)
    (before : JSValue) (e : Thrown)
    (hfail : (handleLoad parse t credentials cb settled).thrown = some e) :
    setLoadedDataCalls (handleLoad parse t credentials cb settled).effects = []
    ∧ loadedDataAfter before (handleLoad parse t credentials cb settled).effects = before
    ∧ alerts (handleLoad parse t credentials cb settled).effects = [alertArg e] := by
  rw [handleLoad_thrown] at hfail
  obtain ⟨h1, h2⟩ := resume_failing parse t cb settled e hfail
  have hcalls : setLoadedDataCalls (handleLoad parse t credentials cb settled).effects = [] := by
    simpa [handleLoad, request, setLoadedDataCalls] using h1
  refine ⟨hcalls, ?_, ?_⟩
  · rw [loadedDataAfter_eq_getLast, hcalls]
    rfl
  · simpa [handleLoad, request, alerts] using h2

/-- The effects of `resume` contain no request. -/
theorem posts_resume (parse : String → Option JSValue) (t : String)
    (cb : Option Callback) (settled : Except Thrown JSValue) :
    posts (resume parse t cb settled).effects = [] := by
  have hsel : ∀ (done : List Effect) (v : JSValue), posts done = [] →
      posts (selectData done v).effects = [] := by
    intro done v hd
    unfold selectData
    cases getProp v "data" <;> simp [display, posts_append, posts, hd]
  have htry : ∀ body, posts (tryBody parse t cb body).effects = [] := by
    intro body
    unfold tryBody
    by_cases ht : t = "HubSpot"
    · simp only [ht, if_true]
      cases hg : getProp body "new_credentials" with
      | error e => rfl
      | ok nc =>
        cases hcb : (if nc.toBoolean = true then cb else none) with
        | none => simpa [hcb] using hsel [] body rfl
        | some f =>
          cases hf : f (updater parse body) with
          | error e => simp [hcb, hf, posts]
          | ok u =>
            simpa [hcb, hf] using hsel [.log "Token refreshed. Updating frontend state...",
              .setIntegrationParams] body rfl
    · simp [ht, display, posts]
  cases settled with
  | error e => rfl
  | ok body =>
    simp only [resume]
    cases h : (tryBody parse t cb body).thrown with
    | none => exact htry body
    | some e => simp [catchAlert, posts_append, htry body, posts]

/-- The value read by the optional chain on an error whose `response.data` is an
object: its `detail` property. -/
theorem errorDetail_of_body (es rs ds : List (String × JSValue))
    (hr : lookupProp "response" es = .obj rs) (hd : lookupProp "data" rs = .obj ds) :
    errorDetail (.value (.obj es)) = lookupProp "detail" ds := by
  simp [errorDetail, optProp, isNullish, ownProps, ownEnumerable, hr, hd]

/-- C5: a failing `handleLoad` (the request was rejected, or an exception was
thrown while the response was processed) does not call `setLoadedData`, so the
display state after it is the display state before it, and on the widget it
does nothing but show one alert. -/
theorem C5_failure_leaves_display_unchanged (parse : String → Option JSValue) (t : String)
    (credentials : JSValue) (cb : Option Callback) (settled : Except Thrown JSValue)
    (before : JSValue)
    (hfail : (handleLoad parse t credentials cb settled).thrown ≠ none) :
    setLoadedDataCalls (handleLoad parse t credentials cb settled).effects = []
    ∧ loadedDataAfter before (handleLoad parse t credentials cb settled).effects = before
    ∧ (alerts (handleLoad parse t credentials cb settled).effects).length = 1 := by
  obtain ⟨e, he⟩ := Option.ne_none_iff_exists'.mp hfail
  obtain ⟨h1, h2, h3⟩ :=
    failing_handleLoad_effects parse t credentials cb settled before e he
  exact ⟨h1, h2, by rw [h3]; rfl⟩

/-- Instance of C5: with the text `old` on display, a request answered 401 with
`{"detail": "invalid token"}`, and a HubSpot response `null` whose processing
throws, both leave `old` on display. -/
theorem C5_failure_leaves_display_unchanged_witness :
    loadedDataAfter (.str "old")
      (handleLoad JSON_parse "Notion" (.obj []) none
        (.error (httpError 401 (.obj [("detail", .str "invalid token")])))).effects = .str "old"
    ∧ loadedDataAfter (.str "old")
      (handleLoad JSON_parse "HubSpot" (.obj []) none (.ok .null)).effects = .str "old" :=
  ⟨(C5_failure_leaves_display_unchanged JSON_parse "Notion" (.obj []) none
      (.error (httpError 401 (.obj [("detail", .str "invalid token")]))) (.str "old")
      (by simp [rejected_is_failing])).2.1,
   (C5_failure_leaves_display_unchanged JSON_parse "HubSpot" (.obj []) none (.ok .null)
      (.str "old") (by simp [handleLoad, resume, tryBody, getProp, isNullish, catchAlert])).2.1⟩

/-- C6 (as the claim states it, refuted): a request answered with the body
`{"detail": ""}` carries a response body with a `detail` field, the empty
string, and the alert shows the fallback text, not that field. -/
theorem C6_empty_detail_counterexample :
    errorDetail (httpError 400 (.obj [("detail", .str "")])) = .str ""
    ∧ alerts (handleLoad JSON_parse "Notion" (.obj []) none
        (.error (httpError 400 (.obj [("detail", .str "")])))).effects
      = [.str "Error loading data"]
    ∧ "" ≠ "Error loading data" :=
  ⟨rfl, rfl, by decide⟩

/-- C6 (amended): a failing `handleLoad` calls `alert` exactly once; the
argument is the value of `e?.response?.data?.detail` of the exception `e` when
that value is truthy, and the text "Error loading data" otherwise. For an error
object whose `response.data` is an object, that value is the `detail` property
of the response body. -/
theorem C6_alert_argument (parse : String → Option JSValue) (t : String)
    (credentials : JSValue) (cb : Option Callback) (settled : Except Thrown JSValue)
    (e : Thrown) (hfail : (handleLoad parse t credentials cb settled).thrown = some e) :
    alerts (handleLoad parse t credentials cb settled).effects
      = [if (errorDetail e).toBoolean = true then errorDetail e
         else .str "Error loading data"]
    ∧ ∀ es rs ds, e = .value (.obj es) → lookupProp "response" es = .obj rs →
        lookupProp "data" rs = .obj ds → errorDetail e = lookupProp "detail" ds := by
  constructor
  · rw [handleLoad_thrown] at hfail
    have h := (resume_failing parse t cb settled e hfail).2
    simpa [handleLoad, request, alerts, alertArg] using h
  · intro es rs ds he hr hd
    rw [he]
    exact errorDetail_of_body es rs ds hr hd

/-- Instance of C6: the body `{"detail": "invalid token"}` gives exactly the
alert "invalid token"; a failure without a response gives the fallback. -/
theorem C6_alert_argument_witness :
    alerts (handleLoad JSON_parse "Airtable" (.obj []) none
        (.error (httpError 401 (.obj [("detail", .str "invalid token")])))).effects
      = [.str "invalid token"]
    ∧ alerts (handleLoad JSON_parse "Airtable" (.obj []) none (.error networkError)).effects
      = [.str "Error loading data"] :=
  ⟨(C6_alert_argument JSON_parse "Airtable" (.obj []) none
      (.error (httpError 401 (.obj [("detail", .str "invalid token")])))
      (httpError 401 (.obj [("detail", .str "invalid token")])) rfl).1,
   (C6_alert_argument JSON_parse "Airtable" (.obj []) none (.error networkError)
      networkError rfl).1⟩

/-! ## Malformed `new_credentials` -/

/-- C7 (as the claim states it, refuted): `handleLoad` does not parse
`new_credentials`; the call of `JSON.parse` is inside the closure it passes to
the parent callback. With a callback that keeps the closure for later, the
HubSpot response `{"data": {"x": 1}, "new_credentials": "{bad"}`, whose
`new_credentials` is not valid JSON, is a successful load: no alert, and the
`data` payload is displayed. The same holds for the empty string, for which
the callback is not even called. -/
theorem C7_malformed_credentials_counterexample :
    JSON_parse "\x7bbad" = none
    ∧ alerts (handleLoad JSON_parse "HubSpot" (.obj []) (some deferring)
        (.ok malformedBody)).effects = []
    ∧ loadedDataAfter initialLoadedData (handleLoad JSON_parse "HubSpot" (.obj [])
        (some deferring) (.ok malformedBody)).effects = .str "\x7b\n  \"x\": 1\n\x7d"
    ∧ JSON_parse "" = none
    ∧ alerts (handleLoad JSON_parse "HubSpot" (.obj []) (some (applying (.obj [])))
        (.ok (.obj [("data", examplePayload), ("new_credentials", .str "")]))).effects = []
    ∧ loadedDataAfter initialLoadedData (handleLoad JSON_parse "HubSpot" (.obj [])
        (some (applying (.obj [])))
        (.ok (.obj [("data", examplePayload), ("new_credentials", .str "")]))).effects
      = .str "\x7b\n  \"x\": 1\n\x7d" :=
  ⟨rfl, rfl, rfl, rfl, rfl, rfl⟩

/-- C7 (amended): for HubSpot, a response body whose `new_credentials` is a
non-empty string that is not valid JSON, and a parent callback that applies
the closure before it returns and lets the closure's exception propagate
(`hsync`), the `SyntaxError` of the parse reaches the `catch` of `handleLoad`:
the alert "Error loading data" is shown, `setLoadedData` is not called and the
display state is unchanged. -/
theorem C7_parse_error_through_callback (parse : String → Option JSValue)
    (credentials : JSValue) (cb : Callback) (ps : List (String × JSValue)) (s : String)
    (before : JSValue)
    (hnc : lookupProp "new_credentials" ps = .str s) (hs : s ≠ "") (hbad : parse s = none)
    (hsync : ∀ (u : Updater) (e : Thrown), (∀ prev, u prev = .error e) → cb u = .error e) :
    (handleLoad parse "HubSpot" credentials (some cb) (.ok (.obj ps))).thrown
      = some .SyntaxError
    ∧ alerts (handleLoad parse "HubSpot" credentials (some cb) (.ok (.obj ps))).effects
      = [.str "Error loading data"]
    ∧ setLoadedDataCalls
        (handleLoad parse "HubSpot" credentials (some cb) (.ok (.obj ps))).effects = []
    ∧ loadedDataAfter before
        (handleLoad parse "HubSpot" credentials (some cb) (.ok (.obj ps))).effects = before := by
  have hthrow : ∀ prev, updater parse (.obj ps) prev = .error .SyntaxError := by
    intro prev
    simp [updater, getProp_obj, hnc, toStringJS, hbad]
  have hcb := hsync (updater parse (.obj ps)) .SyntaxError hthrow
  have htruthy : (lookupProp "new_credentials" ps).toBoolean = true := by
    simp [hnc, toBoolean, hs]
  have htry : tryBody parse "HubSpot" (some cb) (.obj ps) =
      { effects := [.log "Token refreshed. Updating frontend state...",
                    .setIntegrationParams],
        responseData := .obj ps, thrown := some .SyntaxError } := by
    rw [tryBody_hubspot_obj]
    simp [htruthy, hcb]
  have hthrown : (handleLoad parse "HubSpot" credentials (some cb) (.ok (.obj ps))).thrown
      = some .SyntaxError := by
    simp [handleLoad, resume, htry, catchAlert]
  have hfail := failing_handleLoad_effects parse "HubSpot" credentials (some cb) (.ok (.obj ps)) before
    .SyntaxError hthrown
  exact ⟨hthrown, hfail.2.2, hfail.1, hfail.2.1⟩

/-- Instance of C7 (amended): with a callback that applies the closure to `{}`
at once, the body `{"data": {"x": 1}, "new_credentials": "{bad"}` gives the
alert "Error loading data" and leaves the display as it was. -/
theorem C7_parse_error_through_callback_witness :
    alerts (handleLoad JSON_parse "HubSpot" (.obj []) (some (applying (.obj [])))
        (.ok malformedBody)).effects = [.str "Error loading data"]
    ∧ loadedDataAfter (.str "old") (handleLoad JSON_parse "HubSpot" (.obj [])
        (some (applying (.obj []))) (.ok malformedBody)).effects = .str "old" :=
  have h := C7_parse_error_through_callback JSON_parse (.obj []) (applying (.obj []))
    [("data", examplePayload), ("new_credentials", .str "\x7bbad")] "\x7bbad" (.str "old")
    rfl (by decide) rfl (fun u e hu => by simp [applying, hu])
  ⟨h.2.1, h.2.2.2⟩

/-! ## Clearing -/

/-- C9: from every display state the clear action gives the initial state of
the widget, for which the text area shows the empty string; clearing twice
gives the same state as clearing once; and the action issues no request,
calls no parent callback and shows no alert. -/
theorem C9_clear_resets_and_is_idempotent (before : JSValue) :
    loadedDataAfter before clearData = initialLoadedData
    ∧ textAreaValue (loadedDataAfter before clearData) = .str ""
    ∧ loadedDataAfter (loadedDataAfter before clearData) clearData
      = loadedDataAfter before clearData
    ∧ posts clearData = []
    ∧ callbackCalls clearData = 0
    ∧ alerts clearData = [] :=
  ⟨rfl, rfl, rfl, rfl, rfl, rfl⟩

/-! ## The request -/

/-- C10: every `handleLoad` issues exactly one request, to the URL made of the
origin and the path `/integrations/<endpoint>/load`; the path is
`/integrations/notion/load` for Notion, `/integrations/airtable/load` for
Airtable and `/integrations/hubspot/load` for HubSpot, and these three paths
are pairwise distinct. -/
theorem C10_request_path :
    (∀ (parse : String → Option JSValue) (t : String) (credentials : JSValue)
        (cb : Option Callback) (settled : Except Thrown JSValue),
        ∃ rest, (handleLoad parse t credentials cb settled).effects
            = .post (origin ++ loadPath t) (toStringJS (JSON_stringify "" credentials)) :: rest
          ∧ posts rest = [])
    ∧ loadPath "Notion" = "/integrations/notion/load"
    ∧ loadPath "Airtable" = "/integrations/airtable/load"
    ∧ loadPath "HubSpot" = "/integrations/hubspot/load"
    ∧ loadPath "Notion" ≠ loadPath "Airtable"
    ∧ loadPath "Notion" ≠ loadPath "HubSpot"
    ∧ loadPath "Airtable" ≠ loadPath "HubSpot" := by
  refine ⟨?_, by decide, by decide, by decide, by decide, by decide, by decide⟩
  intro parse t credentials cb settled
  refine ⟨(resume parse t cb settled).effects, rfl, ?_⟩
  exact posts_resume parse t cb settled

/-! ## The display along a history of events -/

theorem run_append (parse : String → Option JSValue) (w : Widget) (xs ys : List Event) :
    run parse w (xs ++ ys) = (run parse w xs).bind (fun w1 => run parse w1 ys) := by
  induction xs generalizing w with
  | nil => rfl
  | cons x xs ih =>
    simp only [List.cons_append, run]
    cases step parse w x with
    | none => rfl
    | some w1 => exact ih w1

theorem loadCount_append (xs ys : List Event) :
    loadCount (xs ++ ys) = loadCount xs + loadCount ys := by
  induction xs with
  | nil => simp [loadCount]
  | cons x xs ih =>
    cases x with
    | load t c cb =>
      show loadCount (xs ++ ys) + 1 = loadCount xs + 1 + loadCount ys
      omega
    | settle i r => exact ih
    | clear => exact ih

theorem loadProps_none_of_le (xs : List Event) (k : Nat) (h : loadCount xs ≤ k) :
    loadProps xs k = none := by
  induction xs generalizing k with
  | nil => rfl
  | cons x xs ih =>
    cases x with
    | load t c cb =>
      cases k with
      | zero => simp [loadCount] at h
      | succ k =>
        simp only [loadCount] at h
        simpa [loadProps] using ih k (by omega)
    | settle i r => simpa [loadProps] using ih k (by simpa [loadCount] using h)
    | clear => simpa [loadProps] using ih k (by simpa [loadCount] using h)

theorem loadProps_append_of_some (xs ys : List Event) (k : Nat)
    (props : String × Option Callback) (h : loadProps xs k = some props) :
    loadProps (xs ++ ys) k = some props := by
  induction xs generalizing k with
  | nil => simp [loadProps] at h
  | cons x xs ih =>
    cases x with
    | load t c cb =>
      cases k with
      | zero => simpa [loadProps] using h
      | succ k => simpa [loadProps] using ih k (by simpa [loadProps] using h)
    | settle i r => simpa [loadProps] using ih k (by simpa [loadProps] using h)
    | clear => simpa [loadProps] using ih k (by simpa [loadProps] using h)

theorem loadProps_append_load (xs : List Event) (t : String) (c : JSValue)
    (cb : Option Callback) :
    loadProps (xs ++ [.load t c cb]) (loadCount xs) = some (t, cb) := by
  induction xs with
  | nil => rfl
  | cons x xs ih =>
    cases x with
    | load t1 c1 cb1 => simpa [loadProps, loadCount] using ih
    | settle i r => simpa [loadProps, loadCount] using ih
    | clear => simpa [loadProps, loadCount] using ih

theorem findPending_mem (id : Nat) (ps : List Pending) (p : Pending)
    (h : findPending id ps = some p) : p ∈ ps := by
  induction ps with
  | nil => simp [findPending] at h
  | cons q qs ih =>
    simp only [findPending] at h
    by_cases hq : q.id = id
    · simp only [hq, if_true, Option.some.injEq] at h
      simp [h]
    · simp only [hq, if_false] at h
      exact List.mem_cons_of_mem _ (ih h)

theorem findPending_id (id : Nat) (ps : List Pending) (p : Pending)
    (h : findPending id ps = some p) : p.id = id := by
  induction ps with
  | nil => simp [findPending] at h
  | cons q qs ih =>
    simp only [findPending] at h
    by_cases hq : q.id = id
    · simp only [hq, if_true, Option.some.injEq] at h
      rw [← h]
      exact hq
    · simp only [hq, if_false] at h
      exact ih h

theorem mem_of_mem_removePending (id : Nat) (ps : List Pending) (p : Pending)
    (h : p ∈ removePending id ps) : p ∈ ps := by
  induction ps with
  | nil => simp [removePending] at h
  | cons q qs ih =>
    simp only [removePending] at h
    by_cases hq : q.id = id
    · simp only [hq, if_true] at h
      exact List.mem_cons_of_mem _ h
    · simp only [hq, if_false, List.mem_cons] at h
      rcases h with h | h
      · simp [h]
      · exact List.mem_cons_of_mem _ (ih h)

/-- The invariant of the reachable states: the loads started are counted, each
load in flight carries the props of its `load` event, and the display is the
last value written, where the props of a settled load may be looked up in any
history that extends this one. -/
theorem reachable_invariant (parse : String → Option JSValue) (evs : List Event) :
    ∀ w, run parse Widget.initial evs = some w →
      w.started = loadCount evs
      ∧ (∀ p ∈ w.pending,
          loadProps evs p.id = some (p.integrationType, p.setIntegrationParams))
      ∧ (∀ all : List Event,
          (∀ k props, loadProps evs k = some props → loadProps all k = some props) →
          w.loadedData
            = ((evs.filterMap (written parse all)).getLast?).getD initialLoadedData) := by
  induction evs using List.reverseRecOn with
  | nil =>
    intro w h
    simp only [run, Option.some.injEq] at h
    subst h
    exact ⟨rfl, by simp [Widget.initial], fun _ _ => rfl⟩
  | append_singleton evs e ih =>
    intro w1 h
    rw [run_append] at h
    cases hrun : run parse Widget.initial evs with
    | none => simp [hrun] at h
    | some w =>
      obtain ⟨hstarted, hpending, hdisplay⟩ := ih w hrun
      simp only [hrun, Option.some_bind, run] at h
      cases hstep : step parse w e with
      | none => simp [hstep] at h
      | some w2 =>
        simp only [hstep, Option.some.injEq] at h
        subst h
        have hext : ∀ (all : List Event),
            (∀ k props, loadProps (evs ++ [e]) k = some props → loadProps all k = some props) →
            ∀ k props, loadProps evs k = some props → loadProps all k = some props :=
          fun all hall k props hk => hall k props (loadProps_append_of_some evs [e] k props hk)
        cases e with
        | load t c cb =>
          simp only [step, Option.some.injEq] at hstep
          subst hstep
          refine ⟨?_, ?_, ?_⟩
          · simp [loadCount_append, loadCount, hstarted]
          · intro p hp
            simp only [List.mem_append, List.mem_singleton] at hp
            rcases hp with hp | hp
            · exact loadProps_append_of_some evs _ p.id _ (hpending p hp)
            · subst hp
              simpa [hstarted] using loadProps_append_load evs t c cb
          · intro all hall
            simp [List.filterMap_append, written, hdisplay all (hext all hall)]
        | clear =>
          simp only [step, Option.some.injEq] at hstep
          subst hstep
          refine ⟨?_, ?_, ?_⟩
          · simp [loadCount_append, loadCount, hstarted]
          · intro p hp
            exact loadProps_append_of_some evs _ p.id _ (hpending p hp)
          · intro all _
            simp [List.filterMap_append, written, clearData, loadedDataAfter]
        | settle id settled =>
          simp only [step] at hstep
          cases hfind : findPending id w.pending with
          | none => simp [hfind] at hstep
          | some p =>
            simp only [hfind, Option.some.injEq] at hstep
            subst hstep
            have hprops := hpending p (findPending_mem id w.pending p hfind)
            rw [findPending_id id w.pending p hfind] at hprops
            refine ⟨?_, ?_, ?_⟩
            · simp [loadCount_append, loadCount, hstarted]
            · intro q hq
              exact loadProps_append_of_some evs _ q.id _
                (hpending q (mem_of_mem_removePending id w.pending q hq))
            · intro all hall
              have hall1 := hext all hall
              have hw : written parse all (.settle id settled)
                  = (setLoadedDataCalls (resume parse p.integrationType
                      p.setIntegrationParams settled).effects).getLast? := by
                simp [written, hall1 id _ hprops, shown]
              simp only [List.filterMap_append, List.filterMap_cons, List.filterMap_nil, hw,
                loadedDataAfter_eq_getLast, hdisplay all hall1]
              cases (setLoadedDataCalls (resume parse p.integrationType
                      p.setIntegrationParams settled).effects).getLast? with
              | none => simp
              | some v => simp

/-- C8 (as the claim states it, refuted): when the response of the first load
arrives after the response of the second, the display shows the result of the
first, older load, not of the most recently started one; and when clear is
pressed while a load is in flight, the response that arrives afterwards
overwrites the cleared display. -/
theorem C8_stale_response_overwrites_counterexample :
    (run JSON_parse Widget.initial overtaken).map Widget.loadedData = some (.str "1")
    ∧ displayByStart JSON_parse overtaken = .str "2"
    ∧ "1" ≠ "2"
    ∧ (run JSON_parse Widget.initial clearedInFlight).map Widget.loadedData = some (.str "1")
    ∧ displayByStart JSON_parse clearedInFlight = initialLoadedData :=
  ⟨rfl, rfl, by decide, rfl, rfl⟩

/-- C8 (amended): in every reachable state the display state is the value
written by the most recent event that writes it, in the order in which the
events happen: a clear writes the empty state, the arrival of a response whose
load succeeds writes the pretty-printed payload of that load, whenever that
load was started; the initial empty state if no such event happened. -/
theorem C8_display_is_last_arrival (parse : String → Option JSValue) (evs : List Event)
    (w : Widget) (hreach : run parse Widget.initial evs = some w) :
    w.loadedData = displayByArrival parse evs :=
  (reachable_invariant parse evs w hreach).2.2 evs (fun _ _ h => h)

/-- Instance of C8 (amended): in the history where the first load's response
arrives last, the display is the first load's result. -/
theorem C8_display_is_last_arrival_witness :
    (⟨.str "1", [], 2⟩ : Widget).loadedData = displayByArrival JSON_parse overtaken :=
  C8_display_is_last_arrival JSON_parse overtaken ⟨.str "1", [], 2⟩ rfl

end DataForm
